import Mathlib

/-!
Shallow embedding of the contributor-insights rule-body builder of this
repository, together with theorems settling the specification claims.

Embedded sources:
- packages/aws-cdk/aws-cloudwatch/lib/insight-rule-body.ts
  (filter operation functions, CloudWatchLogsV1RuleBody, CustomRuleBody)
- packages/aws-cdk/aws-cloudwatch/lib/private/insight-rule-util.ts
  (keysToPascalCase)
- the unnamed source file holding InsightsRuleBodyFilterBuilder and
  InsightsRuleBodyFilter (builder revision of the filter model)

JavaScript-specific behaviour that the claims depend on is modelled
explicitly and commented at each definition: truthiness of values in
logical-or defaulting, reference (not value) equality of the schema
object comparison, in-place mutation of the description, and the
semantics of JSON.stringify.
-/

/--
Universe of JavaScript values that flow through the rule-body code:
strings, numbers (the rule bodies only ever hold integral numbers, so
they are modelled as Int), booleans, arrays, plain objects (ordered
key-value lists, as JS objects preserve insertion order), plus the
distinguished values undefined and null.
-/
inductive TsVal where
  | undef : TsVal
  | null : TsVal
  | str : String → TsVal
  | num : Int → TsVal
  | bool : Bool → TsVal
  | arr : List TsVal → TsVal
  | obj : List (String × TsVal) → TsVal

/-- Tests whether a value is the JS undefined value. -/
def TsVal.isUndef : TsVal → Bool
  | .undef => true
  | _ => false

/--
JavaScript truthiness of a value: undefined, null, the empty string,
the number 0 and false are falsy; every other value, including the
empty array and the empty object, is truthy.
-/
def jsTruthy : TsVal → Bool
  | .undef => false
  | .null => false
  | .str s => s != ""
  | .num n => n != 0
  | .bool b => b
  | .arr _ => true
  | .obj _ => true

/-- Key list of an object value; empty for every non-object value. -/
def objKeys : TsVal → List String
  | .obj kvs => kvs.map (fun kv => kv.1)
  | _ => []

/-- Looks up the first entry of an object value under the given key. -/
def objGet (v : TsVal) (k : String) : Option TsVal :=
  match v with
  | .obj kvs => (kvs.find? (fun kv => kv.1 == k)).map (fun kv => kv.2)
  | _ => none

/--
Modelled from the spec: the helper dropUndefined is imported by the
source from lib/private/object, a file that is not part of this
repository snapshot. Per the spec, fields whose value is absent (not
merely falsy, specifically not provided) are omitted from the output
object entirely; the helper removes the entries of an object whose
value is undefined, leaving every other value unchanged. It does not
recurse into nested objects (nested undefined values are dropped later
by JSON.stringify itself).
-/
def dropUndefined : TsVal → TsVal
  | .obj kvs => .obj (kvs.filter (fun kv => !kv.2.isUndef))
  | v => v

mutual

/--
Predicate holding when a value contains neither undefined nor null
anywhere (in particular no null placeholders).
-/
def noNullUndef : TsVal → Bool
  | .undef => false
  | .null => false
  | .str _ => true
  | .num _ => true
  | .bool _ => true
  | .arr xs => noNullUndefList xs
  | .obj kvs => noNullUndefEntries kvs

/-- List version of noNullUndef. -/
def noNullUndefList : List TsVal → Bool
  | [] => true
  | x :: xs => noNullUndef x && noNullUndefList xs

/-- Entry-list version of noNullUndef. -/
def noNullUndefEntries : List (String × TsVal) → Bool
  | [] => true
  | kv :: kvs => noNullUndef kv.2 && noNullUndefEntries kvs

end

/-- Hexadecimal digit characters, used for JSON control-character escapes. -/
def hexDigit (n : Nat) : Char :=
  if n < 10 then Char.ofNat (48 + n) else Char.ofNat (87 + n)

/-- Four-digit lowercase hexadecimal rendering of a code point below 0x10000. -/
def hex4 (n : Nat) : String :=
  String.mk [hexDigit (n / 4096 % 16), hexDigit (n / 256 % 16),
             hexDigit (n / 16 % 16), hexDigit (n % 16)]

/--
Escape of a single character inside a JSON string literal, following
the behaviour of JSON.stringify: quote, backslash and the named control
characters get two-character escapes, the remaining control characters
get a four-digit unicode escape, everything else is kept verbatim.
-/
def jsonEscapeChar (c : Char) : String :=
  if c = '"' then "\\\""
  else if c = '\\' then "\\\\"
  else if c = '\n' then "\\n"
  else if c = '\r' then "\\r"
  else if c = '\t' then "\\t"
  else if c.toNat = 8 then "\\b"
  else if c.toNat = 12 then "\\f"
  else if c.toNat < 32 then "\\u" ++ hex4 c.toNat
  else String.singleton c

/-- JSON string literal for a raw string, quotes included. -/
def jsonQuote (s : String) : String :=
  "\"" ++ String.join (s.data.map jsonEscapeChar) ++ "\""

mutual

/--
Model of the JavaScript builtin JSON.stringify: returns none exactly
for undefined (JSON.stringify of undefined is undefined, not a string);
object entries whose value is undefined are dropped; undefined array
elements are serialized as null. Our value universe has no functions,
symbols or cycles, so no other special case of the builtin arises.
-/
def jsonStringify : TsVal → Option String
  | .undef => none
  | .null => some "null"
  | .str s => some (jsonQuote s)
  | .num n => some (toString n)
  | .bool b => some (cond b "true" "false")
  | .arr xs => some ("[" ++ String.intercalate "," (jsonStringifyElems xs) ++ "]")
  | .obj kvs => some ("\x7b" ++ String.intercalate "," (jsonStringifyEntries kvs) ++ "\x7d")

/-- Array-element serialization for jsonStringify: undefined becomes null. -/
def jsonStringifyElems : List TsVal → List String
  | [] => []
  | x :: xs => ((jsonStringify x).getD "null") :: jsonStringifyElems xs

/-- Object-entry serialization for jsonStringify: undefined-valued entries are dropped. -/
def jsonStringifyEntries : List (String × TsVal) → List String
  | [] => []
  | kv :: kvs =>
    match jsonStringify kv.2 with
    | none => jsonStringifyEntries kvs
    | some s => (jsonQuote kv.1 ++ ":" ++ s) :: jsonStringifyEntries kvs

end

mutual

/--
Semantic model of the composition JSON.parse after JSON.stringify on a
value of our universe: object entries whose value is undefined
disappear, undefined array elements come back as null, and every other
value maps to itself structurally. Claims about the parsed form of a
rendered JSON string are stated against this function.
-/
def stringifyParse : TsVal → TsVal
  | .undef => .null
  | .null => .null
  | .str s => .str s
  | .num n => .num n
  | .bool b => .bool b
  | .arr xs => .arr (stringifyParseElems xs)
  | .obj kvs => .obj (stringifyParseEntries kvs)

/-- Array-element version of stringifyParse: undefined elements become null. -/
def stringifyParseElems : List TsVal → List TsVal
  | [] => []
  | x :: xs => stringifyParse x :: stringifyParseElems xs

/-- Object-entry version of stringifyParse: undefined-valued entries are dropped. -/
def stringifyParseEntries : List (String × TsVal) → List (String × TsVal)
  | [] => []
  | kv :: kvs =>
    if kv.2.isUndef then stringifyParseEntries kvs
    else (kv.1, stringifyParse kv.2) :: stringifyParseEntries kvs

end

/--
First character of a key uppercased, the rest kept, as computed by
keysToPascalCase in lib/private/insight-rule-util.ts via
key.charAt(0).toUpperCase() + key.slice(1).
-/
def pascalKey (k : String) : String :=
  match k.data with
  | [] => ""
  | c :: cs => String.mk (c.toUpper :: cs)

mutual

/--
Embedding of keysToPascalCase from lib/private/insight-rule-util.ts:
non-object values are returned unchanged (typeof is not an object for
strings, numbers, booleans and undefined), arrays are mapped over, and
for objects every key has its first character uppercased while values
are converted recursively. The JS null value has typeof object and
would make the source raise a TypeError on Object.keys; it is mapped to
itself here, and no value of the validated rule-body pipeline is null.
-/
def keysToPascalCase : TsVal → TsVal
  | .undef => .undef
  | .null => .null
  | .str s => .str s
  | .num n => .num n
  | .bool b => .bool b
  | .arr xs => .arr (keysToPascalCaseList xs)
  | .obj kvs => .obj (keysToPascalCaseEntries kvs)

/-- Array version of keysToPascalCase. -/
def keysToPascalCaseList : List TsVal → List TsVal
  | [] => []
  | x :: xs => keysToPascalCase x :: keysToPascalCaseList xs

/-- Object-entry version of keysToPascalCase. -/
def keysToPascalCaseEntries : List (String × TsVal) → List (String × TsVal)
  | [] => []
  | kv :: kvs => (pascalKey kv.1, keysToPascalCase kv.2) :: keysToPascalCaseEntries kvs

end

/-- Helper answering whether an Except value is a success. -/
def exceptIsOk {α : Type} : Except String α → Bool
  | .ok _ => true
  | .error _ => false

/-- Log formats of a CloudWatch log rule (enum InsightRuleLogFormats). -/
inductive InsightRuleLogFormats where
  | JSON : InsightRuleLogFormats
  | CLF : InsightRuleLogFormats
deriving Repr, DecidableEq

/-- Wire string of a log format, the value of the TS enum member. -/
def InsightRuleLogFormats.value : InsightRuleLogFormats → String
  | .JSON => "JSON"
  | .CLF => "CLF"

/-- Aggregation modes of an insight rule (enum InsightRuleAggregates). -/
inductive InsightRuleAggregates where
  | COUNT : InsightRuleAggregates
  | SUM : InsightRuleAggregates
deriving Repr, DecidableEq

/-- Wire string of an aggregation mode, the value of the TS enum member. -/
def InsightRuleAggregates.value : InsightRuleAggregates → String
  | .COUNT => "Count"
  | .SUM => "Sum"

/-- Schema identifier of a rule body (interface IInsightRuleSchema). -/
structure IInsightRuleSchema where
  name : String
  version : Int
deriving Repr, DecidableEq

/--
Identity-aware schema reference. The source compares the schema of a
rule body against its private static constant SCHEMA with the JS loose
inequality operator, which for two objects is reference inequality:
it is false only when both sides are the very same object. constRef
stands for the one constant object held by the class (reachable by a
description only through defaulting, since the constant is private);
fresh stands for any caller-allocated schema object together with its
value. Two schema objects with equal name and version are still
different references unless both are the constant.
-/
inductive SchemaRef where
  | constRef : SchemaRef
  | fresh : IInsightRuleSchema → SchemaRef
deriving Repr, DecidableEq

/-- Value held by a schema reference; the constant is named CloudWatchLogRule, version 1. -/
def SchemaRef.value : SchemaRef → IInsightRuleSchema
  | .constRef => { name := "CloudWatchLogRule", version := 1 }
  | .fresh v => v

/--
Contribution part of a rule-body description (interface
IInsightRuleContribution): keys, optional valueof, optional filters.
The filters field is typed any[] in the source, so its elements are
arbitrary JS values.
-/
structure IInsightRuleContribution where
  keys : List String
  valueof : Option String := none
  filters : Option (List TsVal) := none

/--
Description of a version 1 CloudWatch Logs rule body (interface
ICloudWatchLogsV1RuleBody). Option models a field the caller may omit.
-/
structure ICloudWatchLogsV1RuleBody where
  schema : Option SchemaRef := none
  logGroupNames : List String
  logFormat : Option InsightRuleLogFormats := none
  fields : Option (List (String × String)) := none
  contribution : IInsightRuleContribution
  aggregateOn : Option InsightRuleAggregates := none

/-- Constant MAX_CONTRIBUTION_KEYS of class InsightRuleBody. -/
def InsightRuleBody.MAX_CONTRIBUTION_KEYS : Nat := 4

/-- Constant MIN_CONTRIBUTION_KEYS of class InsightRuleBody. -/
def InsightRuleBody.MIN_CONTRIBUTION_KEYS : Nat := 0

/-- Constant MAX_CONTRIBUTION_FILTERS of class InsightRuleBody. -/
def InsightRuleBody.MAX_CONTRIBUTION_FILTERS : Nat := 4

/-- Private static constant SCHEMA of CloudWatchLogsV1RuleBody. -/
def CloudWatchLogsV1RuleBody.SCHEMA : IInsightRuleSchema :=
  { name := "CloudWatchLogRule", version := 1 }

/--
JavaScript truthiness of an optional string, as tested by the
conditional operator on ruleBody.contribution.valueof: an absent value
and the empty string are falsy, every other string is truthy.
-/
def jsTruthyStringOpt : Option String → Bool
  | some s => s != ""
  | none => false

/--
Embedding of CloudWatchLogsV1RuleBody.setRuleBodyDefaults. Each field
is defaulted with the JS logical-or pattern (field = field or default),
so a supplied value is kept exactly when it is truthy:
- logFormat: the enum values JSON and CLF are nonempty strings, hence
  truthy, so any supplied format is kept; otherwise the format is CLF
  when the fields object is defined (any object, including an empty
  one, is truthy) and JSON when it is absent;
- schema: any supplied schema object is truthy and kept, otherwise the
  constant SCHEMA object itself (constRef) is filled in;
- aggregateOn: the enum values Count and Sum are truthy and kept;
  otherwise SUM is chosen when contribution.valueof is truthy (defined
  and not the empty string), else COUNT;
- contribution.filters: any supplied array, including an empty one, is
  truthy and kept; an absent value becomes the empty array.
The source mutates the given description in place and returns it; the
returned value here is the state of the caller object after the call.
-/
def CloudWatchLogsV1RuleBody.setRuleBodyDefaults
    (ruleBody : ICloudWatchLogsV1RuleBody) : ICloudWatchLogsV1RuleBody :=
  { ruleBody with
    logFormat := some (ruleBody.logFormat.getD
      (if ruleBody.fields.isSome then .CLF else .JSON)),
    schema := some (ruleBody.schema.getD .constRef),
    aggregateOn := some (ruleBody.aggregateOn.getD
      (if jsTruthyStringOpt ruleBody.contribution.valueof then .SUM else .COUNT)),
    contribution := { ruleBody.contribution with
      filters := some (ruleBody.contribution.filters.getD []) } }

/--
String produced by interpolating an optional schema object into a JS
template literal: an object renders as [object Object], an absent value
renders as undefined.
-/
def schemaTemplateString : Option SchemaRef → String
  | some _ => "[object Object]"
  | none => "undefined"

/--
Embedding of CloudWatchLogsV1RuleBody.validateRuleBody, checks in
source order:
- schema: the source tests ruleBody.schema != this.SCHEMA, a reference
  comparison that succeeds only for the constant object itself, so any
  caller-allocated schema fails it even with matching name and version;
  the message interpolates both objects as [object Object];
- contribution keys: more than MAX_CONTRIBUTION_KEYS (or fewer than
  MIN_CONTRIBUTION_KEYS, impossible for a length) fails; the message
  interpolates MIN_CONTRIBUTION_KEYS for both ends of the range and the
  continuation template line contributes a newline and eleven spaces;
- contribution filters: when the filters array is defined and longer
  than MAX_CONTRIBUTION_FILTERS the check fails; the message
  interpolates the length of contribution.keys, not of the filters.
-/
def CloudWatchLogsV1RuleBody.validateRuleBody
    (ruleBody : ICloudWatchLogsV1RuleBody) : Except String Unit :=
  match ruleBody.schema with
  | some .constRef =>
    if ruleBody.contribution.keys.length > InsightRuleBody.MAX_CONTRIBUTION_KEYS ∨
        ruleBody.contribution.keys.length < InsightRuleBody.MIN_CONTRIBUTION_KEYS then
      .error ("A version 1 CloudWatch Log Rule body can have between " ++
        toString InsightRuleBody.MIN_CONTRIBUTION_KEYS ++ " to " ++ "\n           " ++
        toString InsightRuleBody.MIN_CONTRIBUTION_KEYS ++ " keys, but " ++
        toString ruleBody.contribution.keys.length ++ " was given.")
    else
      let filtersTooLong : Bool :=
        match ruleBody.contribution.filters with
        | some fs => fs.length > InsightRuleBody.MAX_CONTRIBUTION_FILTERS
        | none => false
      if filtersTooLong then
        .error ("A version 1 CloudWatch Log Rule body can up to " ++
          toString InsightRuleBody.MAX_CONTRIBUTION_FILTERS ++ " , but " ++
          toString ruleBody.contribution.keys.length ++ " was given.")
      else
        .ok ()
  | other =>
    .error ("A version 1 CloudWatch Log rule body can only have a schema [object Object], but " ++
      schemaTemplateString other ++ " was given")

/--
Embedding of CloudWatchLogsV1RuleBody.fromRuleBody: apply the defaults,
validate, and on success return the defaulted description that the
returned IRuleBody closure captures for rendering.
-/
def CloudWatchLogsV1RuleBody.fromRuleBody
    (ruleBody : ICloudWatchLogsV1RuleBody) : Except String ICloudWatchLogsV1RuleBody :=
  let rb := CloudWatchLogsV1RuleBody.setRuleBodyDefaults ruleBody
  match CloudWatchLogsV1RuleBody.validateRuleBody rb with
  | .error e => .error e
  | .ok _ => .ok rb

/--
Caller-visible state of the description object once fromRuleBody has
run (whether validation then throws or not). setRuleBodyDefaults
assigns to ruleBody.logFormat, ruleBody.schema, ruleBody.aggregateOn
and ruleBody.contribution.filters before validateRuleBody executes;
objects are passed by sharing in JS, so these assignments mutate the
very object (and nested contribution object) the caller passed in.
-/
def CloudWatchLogsV1RuleBody.fromRuleBodyCallerView
    (ruleBody : ICloudWatchLogsV1RuleBody) : ICloudWatchLogsV1RuleBody :=
  CloudWatchLogsV1RuleBody.setRuleBodyDefaults ruleBody

/-- JS object form of the fields mapping of a description. -/
def fieldsToTsVal (kvs : List (String × String)) : TsVal :=
  .obj (kvs.map (fun kv => (kv.1, .str kv.2)))

/--
JS object form of the contribution part of a description. Absent
optional members appear as undefined-valued entries, which every
consumer in the render pipeline treats exactly like missing keys.
-/
def contributionToTsVal (c : IInsightRuleContribution) : TsVal :=
  .obj [("keys", .arr (c.keys.map .str)),
        ("valueof", match c.valueof with | some s => .str s | none => .undef),
        ("filters", match c.filters with | some fs => .arr fs | none => .undef)]

/--
JS object form of a rule-body description as handed to the render
pipeline (dropUndefined, then ruleBodyKeysToPascalCase, then
JSON.stringify). Keys are listed in interface declaration order; key
order never matters to the claims. Absent optional members appear as
undefined-valued entries, observationally equal to missing keys for
every consumer in the pipeline.
-/
def descToTsVal (d : ICloudWatchLogsV1RuleBody) : TsVal :=
  .obj [("schema", match d.schema with
          | some r => .obj [("name", .str r.value.name), ("version", .num r.value.version)]
          | none => .undef),
        ("logGroupNames", .arr (d.logGroupNames.map .str)),
        ("logFormat", match d.logFormat with | some f => .str f.value | none => .undef),
        ("fields", match d.fields with | some kvs => fieldsToTsVal kvs | none => .undef),
        ("contribution", contributionToTsVal d.contribution),
        ("aggregateOn", match d.aggregateOn with | some a => .str a.value | none => .undef)]

/--
Patch step of ruleBodyKeysToPascalCase on the Contribution object: when
the Valueof entry is truthy, a ValueOf entry with the same value is
appended and the Valueof entry deleted; a falsy Valueof (undefined, or
the empty string) is left untouched.
-/
def patchContribution (c : TsVal) : TsVal :=
  match objGet c "Valueof" with
  | some val =>
    if jsTruthy val then
      match c with
      | .obj kvs => .obj ((kvs.filter (fun kv => kv.1 != "Valueof")) ++ [("ValueOf", val)])
      | v => v
    else c
  | none => c

/--
Embedding of the exported ruleBodyKeysToPascalCase: apply
keysToPascalCase to the whole description, then repair the Valueof key
of the Contribution object into ValueOf (the generic casing transform
cannot produce it, since the interface field is valueof). The source
reads pascalRuleBody.Contribution.Valueof directly; the rule-body
pipeline always passes an object with a Contribution key, and a value
without one is returned unchanged here.
-/
def ruleBodyKeysToPascalCase (ruleBody : TsVal) : TsVal :=
  match keysToPascalCase ruleBody with
  | .obj kvs => .obj (kvs.map (fun kv =>
      if kv.1 == "Contribution" then (kv.1, patchContribution kv.2) else kv))
  | v => v

/--
Rendered rule-body JSON string of a (defaulted, validated) description:
the renderRuleBody closure of the IRuleBody returned by fromRuleBody
computes JSON.stringify of ruleBodyKeysToPascalCase of dropUndefined of
the captured description.
-/
def CloudWatchLogsV1RuleBody.renderRuleBody (ruleBody : ICloudWatchLogsV1RuleBody) : Option String :=
  jsonStringify (ruleBodyKeysToPascalCase (dropUndefined (descToTsVal ruleBody)))

/--
Parsed form of the rendered rule-body JSON string of a (defaulted,
validated) description, stated through the semantic model of
JSON.parse after JSON.stringify.
-/
def CloudWatchLogsV1RuleBody.renderedJson (ruleBody : ICloudWatchLogsV1RuleBody) : TsVal :=
  stringifyParse (ruleBodyKeysToPascalCase (dropUndefined (descToTsVal ruleBody)))

/--
Embedding of CustomRuleBody.fromRuleBody: no defaulting, no validation;
the returned IRuleBody closure renders JSON.stringify of the given
value, whatever its shape. The rendered string is returned directly.
-/
def CustomRuleBody.fromRuleBody (ruleBody : TsVal) : Option String :=
  jsonStringify ruleBody

/--
Filter operations of the builder revision (enum
InsightsRuleBodyFilterOperations), including the UNDEFINED sentinel the
constructor uses before an operation method has run.
-/
inductive InsightsRuleBodyFilterOperations where
  | IN : InsightsRuleBodyFilterOperations
  | NOT_IN : InsightsRuleBodyFilterOperations
  | STARTS_WITH : InsightsRuleBodyFilterOperations
  | GREATER_THAN : InsightsRuleBodyFilterOperations
  | LESS_THAN : InsightsRuleBodyFilterOperations
  | EQUAL_TO : InsightsRuleBodyFilterOperations
  | NOT_EQUAL_TO : InsightsRuleBodyFilterOperations
  | IS_PRESENT : InsightsRuleBodyFilterOperations
  | UNDEFINED : InsightsRuleBodyFilterOperations
deriving Repr, DecidableEq

/-- Wire string of a builder filter operation, the value of the TS enum member. -/
def InsightsRuleBodyFilterOperations.value : InsightsRuleBodyFilterOperations → String
  | .IN => "In"
  | .NOT_IN => "NotIn"
  | .STARTS_WITH => "StartsWith"
  | .GREATER_THAN => "GreaterThan"
  | .LESS_THAN => "LessThan"
  | .EQUAL_TO => "EqualTo"
  | .NOT_EQUAL_TO => "NotEqualTo"
  | .IS_PRESENT => "IsPresent"
  | .UNDEFINED => "UNDEFINED"

/-- Statistic qualifiers (enum InsightsRuleBodyFilterStatistics). -/
inductive InsightsRuleBodyFilterStatistics where
  | SUM : InsightsRuleBodyFilterStatistics
  | COUNT : InsightsRuleBodyFilterStatistics
  | AVERAGE : InsightsRuleBodyFilterStatistics
deriving Repr, DecidableEq

/-- Wire string of a statistic qualifier, the value of the TS enum member. -/
def InsightsRuleBodyFilterStatistics.value : InsightsRuleBodyFilterStatistics → String
  | .SUM => "Sum"
  | .COUNT => "Count"
  | .AVERAGE => "Average"

/--
Operand of a filter: the source types it number, string array or
boolean (the union in IInsightsRuleBodyFilter.filterOperand).
-/
inductive FilterOperandVal where
  | strs : List String → FilterOperandVal
  | num : Int → FilterOperandVal
  | bool : Bool → FilterOperandVal
deriving Repr, DecidableEq

/-- JS value of a filter operand. -/
def FilterOperandVal.toTsVal : FilterOperandVal → TsVal
  | .strs xs => .arr (xs.map .str)
  | .num n => .num n
  | .bool b => .bool b

/--
String produced by interpolating a filter operand into a JS template
literal: an array joins its elements with commas, numbers and booleans
print themselves.
-/
def FilterOperandVal.templateString : FilterOperandVal → String
  | .strs xs => String.intercalate "," xs
  | .num n => toString n
  | .bool b => cond b "true" "false"

/--
Filter interface of the builder revision (IInsightsRuleBodyFilter).
The optional members filterIgnoreCase and filterStatistic may be
absent, which Option models.
-/
structure IInsightsRuleBodyFilter where
  filterMatch : String
  filterOperation : InsightsRuleBodyFilterOperations
  filterOperand : FilterOperandVal
  filterIgnoreCase : Option Bool := none
  filterStatistic : Option InsightsRuleBodyFilterStatistics := none
deriving Repr, DecidableEq

/--
State of an InsightsRuleBodyFilterBuilder: match field, operation (the
UNDEFINED sentinel until an operation method runs), operand (the empty
array sentinel until then), and the two optional annotations.
-/
structure InsightsRuleBodyFilterBuilder where
  filterMatch : String
  filterOperation : InsightsRuleBodyFilterOperations
  filterOperand : FilterOperandVal
  filterIgnoreCase : Option Bool := none
  filterStatistic : Option InsightsRuleBodyFilterStatistics := none
deriving Repr, DecidableEq

/-- Constant MAX_OPERAND_ARR_LEN of the builder. -/
def InsightsRuleBodyFilterBuilder.MAX_OPERAND_ARR_LEN : Nat := 10

/-- Constant MIN_OPERAND_ARR_LEN of the builder. -/
def InsightsRuleBodyFilterBuilder.MIN_OPERAND_ARR_LEN : Nat := 1

/--
Embedding of the builder constructor: stores the match field and the
two sentinel values for operation and operand.
-/
def InsightsRuleBodyFilterBuilder.create (matchField : String) : InsightsRuleBodyFilterBuilder :=
  { filterMatch := matchField
    filterOperation := .UNDEFINED
    filterOperand := .strs [] }

/--
Embedding of InsightsRuleBodyFilterBuilder.checkAndErrorIfBadOperand:
rejects operand arrays longer than MAX_OPERAND_ARR_LEN or shorter than
MIN_OPERAND_ARR_LEN. The message template interpolates
MAX_OPERAND_ARR_LEN both times, for the maximum and for the minimum.
-/
def InsightsRuleBodyFilterBuilder.checkAndErrorIfBadOperand
    (operand : List String) : Except String Unit :=
  if operand.length > InsightsRuleBodyFilterBuilder.MAX_OPERAND_ARR_LEN ∨
      operand.length < InsightsRuleBodyFilterBuilder.MIN_OPERAND_ARR_LEN then
    .error ("Operand array has a max length of " ++
      toString InsightsRuleBodyFilterBuilder.MAX_OPERAND_ARR_LEN ++
      " and a minimum length of " ++
      toString InsightsRuleBodyFilterBuilder.MAX_OPERAND_ARR_LEN ++
      " but given operand length was " ++ toString operand.length)
  else
    .ok ()

/-- Embedding of the builder method in: validates the operand, then sets operation IN. -/
def InsightsRuleBodyFilterBuilder.inOp (b : InsightsRuleBodyFilterBuilder)
    (operand : List String) : Except String InsightsRuleBodyFilterBuilder := do
  InsightsRuleBodyFilterBuilder.checkAndErrorIfBadOperand operand
  return { b with filterOperation := .IN, filterOperand := .strs operand }

/-- Embedding of the builder method notIn. -/
def InsightsRuleBodyFilterBuilder.notIn (b : InsightsRuleBodyFilterBuilder)
    (operand : List String) : Except String InsightsRuleBodyFilterBuilder := do
  InsightsRuleBodyFilterBuilder.checkAndErrorIfBadOperand operand
  return { b with filterOperation := .NOT_IN, filterOperand := .strs operand }

/-- Embedding of the builder method startsWith. -/
def InsightsRuleBodyFilterBuilder.startsWith (b : InsightsRuleBodyFilterBuilder)
    (operand : List String) : Except String InsightsRuleBodyFilterBuilder := do
  InsightsRuleBodyFilterBuilder.checkAndErrorIfBadOperand operand
  return { b with filterOperation := .STARTS_WITH, filterOperand := .strs operand }

/-- Embedding of the builder method greaterThan (no operand validation). -/
def InsightsRuleBodyFilterBuilder.greaterThan (b : InsightsRuleBodyFilterBuilder)
    (operand : Int) : InsightsRuleBodyFilterBuilder :=
  { b with filterOperation := .GREATER_THAN, filterOperand := .num operand }

/-- Embedding of the builder method lessThan. -/
def InsightsRuleBodyFilterBuilder.lessThan (b : InsightsRuleBodyFilterBuilder)
    (operand : Int) : InsightsRuleBodyFilterBuilder :=
  { b with filterOperation := .LESS_THAN, filterOperand := .num operand }

/-- Embedding of the builder method equalTo. -/
def InsightsRuleBodyFilterBuilder.equalTo (b : InsightsRuleBodyFilterBuilder)
    (operand : Int) : InsightsRuleBodyFilterBuilder :=
  { b with filterOperation := .EQUAL_TO, filterOperand := .num operand }

/-- Embedding of the builder method notEqualTo. -/
def InsightsRuleBodyFilterBuilder.notEqualTo (b : InsightsRuleBodyFilterBuilder)
    (operand : Int) : InsightsRuleBodyFilterBuilder :=
  { b with filterOperation := .NOT_EQUAL_TO, filterOperand := .num operand }

/-- Embedding of the builder method isPresent. -/
def InsightsRuleBodyFilterBuilder.isPresent (b : InsightsRuleBodyFilterBuilder)
    (operand : Bool) : InsightsRuleBodyFilterBuilder :=
  { b with filterOperation := .IS_PRESENT, filterOperand := .bool operand }

/-- Embedding of the builder method ignoreCase, settable independent of the operation. -/
def InsightsRuleBodyFilterBuilder.ignoreCase (b : InsightsRuleBodyFilterBuilder)
    (v : Bool) : InsightsRuleBodyFilterBuilder :=
  { b with filterIgnoreCase := some v }

/-- Embedding of the builder method statistic, settable independent of the operation. -/
def InsightsRuleBodyFilterBuilder.statistic (b : InsightsRuleBodyFilterBuilder)
    (s : InsightsRuleBodyFilterStatistics) : InsightsRuleBodyFilterBuilder :=
  { b with filterStatistic := some s }

/--
Embedding of InsightsRuleBodyFilterBuilder.toFilter: raises when the
operation is still the UNDEFINED sentinel, otherwise returns the filter
interface value. The dropUndefined call of the source removes the
optional members when they are undefined, which the Option fields of
IInsightsRuleBodyFilter model directly.
-/
def InsightsRuleBodyFilterBuilder.toFilter (b : InsightsRuleBodyFilterBuilder) :
    Except String IInsightsRuleBodyFilter :=
  if b.filterOperation = .UNDEFINED then
    .error ("Operation cannot be undefined but was given an operation of " ++
      b.filterOperation.value ++ " and an operand of " ++
      b.filterOperand.templateString ++
      ". Must use operation method (.in, .startsWith, etc) before toFilter().")
  else
    .ok { filterMatch := b.filterMatch
          filterOperation := b.filterOperation
          filterOperand := b.filterOperand
          filterIgnoreCase := b.filterIgnoreCase
          filterStatistic := b.filterStatistic }

/--
Embedding of InsightsRuleBodyFilter.fromFilter: renders a filter
interface value to the filter JSON used in a rule body, an object with
the Match key, one key named after the operation holding the operand,
and the optional annotations, where dropUndefined removes the entries
whose value is undefined.
-/
def InsightsRuleBodyFilter.fromFilter (filter : IInsightsRuleBodyFilter) : TsVal :=
  dropUndefined (.obj
    [("Match", .str filter.filterMatch),
     (filter.filterOperation.value, filter.filterOperand.toTsVal),
     ("IgnoreCase", match filter.filterIgnoreCase with | some b => .bool b | none => .undef),
     ("Statistic", match filter.filterStatistic with | some s => .str s.value | none => .undef)])

/--
Filter operations of the static-function revision (enum
InsightRuleBodyFilterOperations in insight-rule-body.ts, which has no
UNDEFINED member).
-/
inductive InsightRuleBodyFilterOperations where
  | IN : InsightRuleBodyFilterOperations
  | NOT_IN : InsightRuleBodyFilterOperations
  | STARTS_WITH : InsightRuleBodyFilterOperations
  | GREATER_THAN : InsightRuleBodyFilterOperations
  | LESS_THAN : InsightRuleBodyFilterOperations
  | EQUAL_TO : InsightRuleBodyFilterOperations
  | NOT_EQUAL_TO : InsightRuleBodyFilterOperations
  | IS_PRESENT : InsightRuleBodyFilterOperations
deriving Repr, DecidableEq

/-- Wire string of a static-revision filter operation. -/
def InsightRuleBodyFilterOperations.value : InsightRuleBodyFilterOperations → String
  | .IN => "In"
  | .NOT_IN => "NotIn"
  | .STARTS_WITH => "StartsWith"
  | .GREATER_THAN => "GreaterThan"
  | .LESS_THAN => "LessThan"
  | .EQUAL_TO => "EqualTo"
  | .NOT_EQUAL_TO => "NotEqualTo"
  | .IS_PRESENT => "IsPresent"

/-- Constant MIN_TEXT_OPERANDS of InsightRuleBodyFilterOperationFunctions. -/
def InsightRuleBodyFilterOperationFunctions.MIN_TEXT_OPERANDS : Nat := 1

/-- Constant MAX_TEXT_OPERANDS of InsightRuleBodyFilterOperationFunctions. -/
def InsightRuleBodyFilterOperationFunctions.MAX_TEXT_OPERANDS : Nat := 10

/--
Embedding of
InsightRuleBodyFilterOperationFunctions.validateTextOperation: rejects
operand lists longer than MAX_TEXT_OPERANDS or shorter than
MIN_TEXT_OPERANDS; the message interpolates the operation, both bounds
and the attempted length.
-/
def InsightRuleBodyFilterOperationFunctions.validateTextOperation
    (operation : InsightRuleBodyFilterOperations) (operand : List String) :
    Except String Unit :=
  if operand.length > InsightRuleBodyFilterOperationFunctions.MAX_TEXT_OPERANDS ∨
      operand.length < InsightRuleBodyFilterOperationFunctions.MIN_TEXT_OPERANDS then
    .error ("The " ++ operation.value ++ " filter operation allows " ++
      toString InsightRuleBodyFilterOperationFunctions.MIN_TEXT_OPERANDS ++ " to " ++
      toString InsightRuleBodyFilterOperationFunctions.MAX_TEXT_OPERANDS ++ " " ++
      "inputs, but " ++ toString operand.length ++ " was provided")
  else
    .ok ()

/--
Embedding of the static operation function in of
InsightRuleBodyFilterOperationFunctions: validates, then produces the
single-key operation-and-input object.
-/
def InsightRuleBodyFilterOperationFunctions.inOperation (operand : List String) :
    Except String TsVal := do
  InsightRuleBodyFilterOperationFunctions.validateTextOperation .IN operand
  return .obj [(InsightRuleBodyFilterOperations.IN.value, .arr (operand.map .str))]

/-- Embedding of the static operation function notIn. -/
def InsightRuleBodyFilterOperationFunctions.notInOperation (operand : List String) :
    Except String TsVal := do
  InsightRuleBodyFilterOperationFunctions.validateTextOperation .NOT_IN operand
  return .obj [(InsightRuleBodyFilterOperations.NOT_IN.value, .arr (operand.map .str))]

/-- Embedding of the static operation function startsWith. -/
def InsightRuleBodyFilterOperationFunctions.startsWithOperation (operand : List String) :
    Except String TsVal := do
  InsightRuleBodyFilterOperationFunctions.validateTextOperation .STARTS_WITH operand
  return .obj [(InsightRuleBodyFilterOperations.STARTS_WITH.value, .arr (operand.map .str))]

/--
Operation-selection method calls of the builder, used to quantify over
every way of choosing an operation: each constructor carries the call
argument of the corresponding builder method.
-/
inductive SelMethod where
  | inOp : List String → SelMethod
  | notIn : List String → SelMethod
  | startsWith : List String → SelMethod
  | greaterThan : Int → SelMethod
  | lessThan : Int → SelMethod
  | equalTo : Int → SelMethod
  | notEqualTo : Int → SelMethod
  | isPresent : Bool → SelMethod
deriving Repr, DecidableEq

/--
Application of one operation-selection method to a builder. The three
text operations can fail on a bad operand; the numeric and boolean
operations always succeed, so they are wrapped in ok.
-/
def applySel : SelMethod → InsightsRuleBodyFilterBuilder →
    Except String InsightsRuleBodyFilterBuilder
  | .inOp operand, b => b.inOp operand
  | .notIn operand, b => b.notIn operand
  | .startsWith operand, b => b.startsWith operand
  | .greaterThan operand, b => .ok (b.greaterThan operand)
  | .lessThan operand, b => .ok (b.lessThan operand)
  | .equalTo operand, b => .ok (b.equalTo operand)
  | .notEqualTo operand, b => .ok (b.notEqualTo operand)
  | .isPresent operand, b => .ok (b.isPresent operand)

/--
Method calls of the builder that do not select an operation: the two
optional annotations.
-/
inductive NonSelMethod where
  | ignoreCase : Bool → NonSelMethod
  | statistic : InsightsRuleBodyFilterStatistics → NonSelMethod
deriving Repr, DecidableEq

/-- Application of one non-selection method to a builder. -/
def applyNonSel : NonSelMethod → InsightsRuleBodyFilterBuilder → InsightsRuleBodyFilterBuilder
  | .ignoreCase v, b => b.ignoreCase v
  | .statistic s, b => b.statistic s

/-- Application of a sequence of non-selection methods, in call order. -/
def applyNonSels : List NonSelMethod → InsightsRuleBodyFilterBuilder → InsightsRuleBodyFilterBuilder
  | [], b => b
  | m :: ms, b => applyNonSels ms (applyNonSel m b)

/-- Success/error payload helper: the message of a failed Except value. -/
def exceptError {α : Type} : Except String α → Option String
  | .error e => some e
  | .ok _ => none

/-- Description whose schema is a fresh object value-equal to the fixed constant. -/
def valueEqualSchemaBody : ICloudWatchLogsV1RuleBody :=
  { schema := some (.fresh { name := "CloudWatchLogRule", version := 1 })
    logGroupNames := ["loggy"]
    contribution := { keys := ["k"] } }

/-- Description with the schema field omitted and everything else valid. -/
def omittedSchemaBody : ICloudWatchLogsV1RuleBody :=
  { logGroupNames := ["loggy"]
    contribution := { keys := ["k"] } }

/-- Description whose fields mapping is supplied but empty, with no explicit logFormat. -/
def emptyFieldsBody : ICloudWatchLogsV1RuleBody :=
  { logGroupNames := ["g"]
    fields := some []
    contribution := { keys := ["k"] } }

/-- Description whose valueof is supplied as the empty string, with no explicit aggregation. -/
def emptyValueofBody : ICloudWatchLogsV1RuleBody :=
  { logGroupNames := ["g"]
    contribution := { keys := ["k"], valueof := some "" } }

/-- Description with five contribution keys and everything else minimal. -/
def fiveKeysBody : ICloudWatchLogsV1RuleBody :=
  { logGroupNames := ["loggy"]
    contribution := { keys := ["k1", "k2", "k3", "k4", "k5"] } }

/-- Filter JSON fragment used to populate filter lists of test descriptions. -/
def sampleFilterTsVal : TsVal :=
  .obj [("Match", .str "$.httpMethod"), ("In", .arr [.str "PUT"])]

/-- Description with one contribution key and five contribution filters. -/
def fiveFiltersBody : ICloudWatchLogsV1RuleBody :=
  { logGroupNames := ["loggy"]
    contribution :=
      { keys := ["k"],
        filters := some [sampleFilterTsVal, sampleFilterTsVal, sampleFilterTsVal,
          sampleFilterTsVal, sampleFilterTsVal] } }

/-- Description with four contribution keys and four contribution filters. -/
def fourKeysFourFiltersBody : ICloudWatchLogsV1RuleBody :=
  { logGroupNames := ["loggy"]
    contribution :=
      { keys := ["k1", "k2", "k3", "k4"],
        filters := some [sampleFilterTsVal, sampleFilterTsVal, sampleFilterTsVal,
          sampleFilterTsVal] } }

/-- Minimal description used to exhibit the in-place mutation of defaulting. -/
def c9MinimalBody : ICloudWatchLogsV1RuleBody :=
  { logGroupNames := ["loggy"]
    contribution := { keys := ["the key!"] } }

/-- Filters list of a description as the render pipeline emits it. -/
def renderedFilters (d : ICloudWatchLogsV1RuleBody) : TsVal :=
  .arr (stringifyParseElems (keysToPascalCaseList (d.contribution.filters.getD [])))

/--
Contribution object of a description as the render pipeline emits it:
Keys always; Valueof untouched when it is the (falsy) empty string,
renamed to ValueOf and moved to the end when nonempty, dropped when
absent; Filters always.
-/
def renderedContribution (d : ICloudWatchLogsV1RuleBody) : TsVal :=
  match d.contribution.valueof with
  | none =>
    .obj [("Keys", .arr (d.contribution.keys.map .str)),
          ("Filters", renderedFilters d)]
  | some s =>
    if s = "" then
      .obj [("Keys", .arr (d.contribution.keys.map .str)),
            ("Valueof", .str ""),
            ("Filters", renderedFilters d)]
    else
      .obj [("Keys", .arr (d.contribution.keys.map .str)),
            ("Filters", renderedFilters d),
            ("ValueOf", .str s)]

/-- Minimal valid description supplying neither logFormat nor fields nor filters. -/
def c7MinimalBody : ICloudWatchLogsV1RuleBody :=
  { logGroupNames := ["g"]
    contribution := { keys := ["k"] } }

/--
C1: the claim says fromRuleBody passes schema validation whenever the
supplied schema is value-equal to the constant (name CloudWatchLogRule,
version 1) and raises exactly on a name/version mismatch. The code
compares with the JS loose inequality operator, which on two objects is
reference inequality, so a caller-supplied schema object raises even
when its name and version equal the constant; only an omitted schema
(filled with the constant object itself by defaulting) passes. This is
a theorem evaluating the code at the failing input: a description carrying
a fresh schema whose value equals the constant is rejected with the
schema error message, while the same description with the schema
omitted is accepted.
-/
theorem fromRuleBody_rejects_value_equal_schema :
    (valueEqualSchemaBody.schema.map SchemaRef.value = some CloudWatchLogsV1RuleBody.SCHEMA) ∧
    exceptError (CloudWatchLogsV1RuleBody.fromRuleBody valueEqualSchemaBody) =
      some ("A version 1 CloudWatch Log rule body can only have a schema " ++
        "[object Object], but [object Object] was given") ∧
    exceptIsOk (CloudWatchLogsV1RuleBody.fromRuleBody omittedSchemaBody) = true := by
  refine ⟨rfl, by decide, by decide⟩

/--
C2 counterexample: the claim says a description whose fields mapping is
supplied but empty is inferred as JSON. The code tests the JS
truthiness of the fields object, and an empty object is truthy, so the
inference yields CLF.
-/
theorem logFormat_empty_fields_infers_CLF_not_JSON :
    emptyFieldsBody.logFormat = none ∧
    emptyFieldsBody.fields = some [] ∧
    (CloudWatchLogsV1RuleBody.setRuleBodyDefaults emptyFieldsBody).logFormat =
      some InsightRuleLogFormats.CLF ∧
    (CloudWatchLogsV1RuleBody.setRuleBodyDefaults emptyFieldsBody).logFormat ≠
      some InsightRuleLogFormats.JSON := by
  refine ⟨rfl, rfl, rfl, by decide⟩

/--
C2 (amended): when logFormat is absent, default inference sets it to
CLF exactly when the fields mapping is supplied (defined, even when
empty) and to JSON exactly when it is absent; an explicitly supplied
logFormat is kept unchanged.
-/
theorem setRuleBodyDefaults_logFormat_spec (d : ICloudWatchLogsV1RuleBody) :
    ((CloudWatchLogsV1RuleBody.setRuleBodyDefaults d).logFormat =
        some InsightRuleLogFormats.CLF ↔
      (d.logFormat = some InsightRuleLogFormats.CLF ∨
        (d.logFormat = none ∧ d.fields ≠ none))) ∧
    ((CloudWatchLogsV1RuleBody.setRuleBodyDefaults d).logFormat =
        some InsightRuleLogFormats.JSON ↔
      (d.logFormat = some InsightRuleLogFormats.JSON ∨
        (d.logFormat = none ∧ d.fields = none))) := by
  cases hf : d.logFormat with
  | none =>
    cases hfi : d.fields <;>
      simp [CloudWatchLogsV1RuleBody.setRuleBodyDefaults, hf, hfi]
  | some f =>
    cases f <;> simp [CloudWatchLogsV1RuleBody.setRuleBodyDefaults, hf]

/--
C3 counterexample: the claim says aggregation is inferred as Sum
whenever valueField is set, including when it is set to the empty
string. The code tests the JS truthiness of contribution.valueof, and
the empty string is falsy, so the inference yields Count.
-/
theorem aggregateOn_empty_valueof_infers_Count_not_Sum :
    emptyValueofBody.aggregateOn = none ∧
    emptyValueofBody.contribution.valueof = some "" ∧
    (CloudWatchLogsV1RuleBody.setRuleBodyDefaults emptyValueofBody).aggregateOn =
      some InsightRuleAggregates.COUNT ∧
    (CloudWatchLogsV1RuleBody.setRuleBodyDefaults emptyValueofBody).aggregateOn ≠
      some InsightRuleAggregates.SUM := by
  refine ⟨rfl, rfl, rfl, by decide⟩

/--
C3 (amended): when aggregation is absent, default inference sets it to
Sum exactly when valueField is supplied as a nonempty string, and to
Count otherwise, an empty-string valueField included; an explicitly
supplied aggregation is kept unchanged.
-/
theorem setRuleBodyDefaults_aggregateOn_spec (d : ICloudWatchLogsV1RuleBody) :
    ((CloudWatchLogsV1RuleBody.setRuleBodyDefaults d).aggregateOn =
        some InsightRuleAggregates.SUM ↔
      (d.aggregateOn = some InsightRuleAggregates.SUM ∨
        (d.aggregateOn = none ∧
          ∃ s, d.contribution.valueof = some s ∧ s ≠ ""))) ∧
    ((CloudWatchLogsV1RuleBody.setRuleBodyDefaults d).aggregateOn =
        some InsightRuleAggregates.COUNT ↔
      (d.aggregateOn = some InsightRuleAggregates.COUNT ∨
        (d.aggregateOn = none ∧
          (d.contribution.valueof = none ∨ d.contribution.valueof = some "")))) := by
  cases ha : d.aggregateOn with
  | none =>
    cases hv : d.contribution.valueof with
    | none =>
      simp [CloudWatchLogsV1RuleBody.setRuleBodyDefaults, jsTruthyStringOpt, ha, hv]
    | some s =>
      by_cases hs : s = "" <;>
        simp [CloudWatchLogsV1RuleBody.setRuleBodyDefaults, jsTruthyStringOpt, ha, hv, hs]
  | some a =>
    cases a <;> simp [CloudWatchLogsV1RuleBody.setRuleBodyDefaults, ha]

/--
C4 (code bug): the success condition holds in both implementations — a
text-set operand list succeeds exactly when its length is between 1 and
10 — and the static-function revision reports the attempted length and
the true bounds, but the builder revision interpolates the
MAX_OPERAND_ARR_LEN constant for both ends of the range, so its message
misreports the minimum as 10 although its own MIN_OPERAND_ARR_LEN
constant is 1 and the length check uses 1. This theorem evaluates both
paths at the boundary inputs.
-/
theorem text_operand_validation_message_bug :
    exceptError (InsightsRuleBodyFilterBuilder.checkAndErrorIfBadOperand []) =
      some ("Operand array has a max length of 10 and a minimum length of 10 " ++
        "but given operand length was 0") ∧
    exceptIsOk (InsightsRuleBodyFilterBuilder.checkAndErrorIfBadOperand ["a"]) = true ∧
    exceptIsOk (InsightsRuleBodyFilterBuilder.checkAndErrorIfBadOperand
      (List.replicate 10 "a")) = true ∧
    exceptIsOk (InsightsRuleBodyFilterBuilder.checkAndErrorIfBadOperand
      (List.replicate 11 "a")) = false ∧
    exceptError (InsightRuleBodyFilterOperationFunctions.validateTextOperation .IN []) =
      some "The In filter operation allows 1 to 10 inputs, but 0 was provided" ∧
    exceptIsOk (InsightRuleBodyFilterOperationFunctions.inOperation ["PUT"]) = true ∧
    exceptIsOk (InsightRuleBodyFilterOperationFunctions.notInOperation
      (List.replicate 11 "a")) = false ∧
    exceptIsOk (InsightRuleBodyFilterOperationFunctions.startsWithOperation []) = false := by
  refine ⟨by decide, by decide, by decide, by decide, by decide, by decide, by decide, by decide⟩

/--
C5 (code bug): the raising condition of the claim holds — validation
fails exactly on more than four contribution keys or more than four
contribution filters, while four of each succeeds — but neither error
message surfaces the offending count together with the bound. The keys
message interpolates MIN_CONTRIBUTION_KEYS (0) for both ends of the
range, so the bound 4 never appears in it; the filters message
interpolates the length of contribution.keys instead of the length of
the violating filters list. This theorem evaluates validation at five
keys, at five filters (with one key), and at four of each.
-/
theorem validateRuleBody_error_messages_bug :
    exceptError (CloudWatchLogsV1RuleBody.fromRuleBody fiveKeysBody) =
      some ("A version 1 CloudWatch Log Rule body can have between 0 to \n" ++
        "           0 keys, but 5 was given.") ∧
    exceptError (CloudWatchLogsV1RuleBody.fromRuleBody fiveFiltersBody) =
      some "A version 1 CloudWatch Log Rule body can up to 4 , but 1 was given." ∧
    exceptIsOk (CloudWatchLogsV1RuleBody.fromRuleBody fourKeysFourFiltersBody) = true := by
  refine ⟨by decide, by decide, by decide⟩

/-- Non-selection builder methods never change the chosen operation. -/
theorem applyNonSels_operation (t : List NonSelMethod) (b : InsightsRuleBodyFilterBuilder) :
    (applyNonSels t b).filterOperation = b.filterOperation := by
  induction t generalizing b with
  | nil => rfl
  | cons m ms ih =>
    cases m <;>
      simp [applyNonSels, applyNonSel, InsightsRuleBodyFilterBuilder.ignoreCase,
        InsightsRuleBodyFilterBuilder.statistic, ih]

/-- Every successful operation-selection call leaves a non-UNDEFINED operation. -/
theorem applySel_ok_operation (s : SelMethod) (b b' : InsightsRuleBodyFilterBuilder)
    (h : applySel s b = .ok b') :
    b'.filterOperation ≠ .UNDEFINED := by
  cases s with
  | inOp operand =>
    cases hc : InsightsRuleBodyFilterBuilder.checkAndErrorIfBadOperand operand with
    | error e =>
      simp [applySel, InsightsRuleBodyFilterBuilder.inOp, hc] at h
    | ok u =>
      simp [applySel, InsightsRuleBodyFilterBuilder.inOp, hc] at h
      simp [← h]
  | notIn operand =>
    cases hc : InsightsRuleBodyFilterBuilder.checkAndErrorIfBadOperand operand with
    | error e =>
      simp [applySel, InsightsRuleBodyFilterBuilder.notIn, hc] at h
    | ok u =>
      simp [applySel, InsightsRuleBodyFilterBuilder.notIn, hc] at h
      simp [← h]
  | startsWith operand =>
    cases hc : InsightsRuleBodyFilterBuilder.checkAndErrorIfBadOperand operand with
    | error e =>
      simp [applySel, InsightsRuleBodyFilterBuilder.startsWith, hc] at h
    | ok u =>
      simp [applySel, InsightsRuleBodyFilterBuilder.startsWith, hc] at h
      simp [← h]
  | greaterThan operand =>
    simp [applySel, InsightsRuleBodyFilterBuilder.greaterThan] at h
    simp [← h]
  | lessThan operand =>
    simp [applySel, InsightsRuleBodyFilterBuilder.lessThan] at h
    simp [← h]
  | equalTo operand =>
    simp [applySel, InsightsRuleBodyFilterBuilder.equalTo] at h
    simp [← h]
  | notEqualTo operand =>
    simp [applySel, InsightsRuleBodyFilterBuilder.notEqualTo] at h
    simp [← h]
  | isPresent operand =>
    simp [applySel, InsightsRuleBodyFilterBuilder.isPresent] at h
    simp [← h]

/--
C6: a builder on which no operation-selection method has been called
(freshly constructed, then any sequence of ignoreCase/statistic calls)
still holds the UNDEFINED sentinel, so toFilter raises; and any builder
produced by a successful operation-selection call (followed by any
further sequence of non-selection calls) renders successfully.
-/
theorem toFilter_requires_operation :
    (∀ (m : String) (t : List NonSelMethod),
      exceptIsOk ((applyNonSels t (InsightsRuleBodyFilterBuilder.create m)).toFilter) = false) ∧
    (∀ (s : SelMethod) (b b' : InsightsRuleBodyFilterBuilder),
      applySel s b = .ok b' →
      ∀ t : List NonSelMethod,
        exceptIsOk ((applyNonSels t b').toFilter) = true) := by
  constructor
  · intro m t
    have hop : (applyNonSels t (InsightsRuleBodyFilterBuilder.create m)).filterOperation =
        InsightsRuleBodyFilterOperations.UNDEFINED := by
      rw [applyNonSels_operation]; rfl
    simp [InsightsRuleBodyFilterBuilder.toFilter, hop, exceptIsOk]
  · intro s b b' h t
    have hop : (applyNonSels t b').filterOperation ≠
        InsightsRuleBodyFilterOperations.UNDEFINED := by
      rw [applyNonSels_operation]
      exact applySel_ok_operation s b b' h
    simp [InsightsRuleBodyFilterBuilder.toFilter, hop, exceptIsOk]

/--
C6 witness: a fresh builder for field $.httpMethod fails to render, and
the builder obtained by a successful in(["PUT"]) call renders.
-/
theorem toFilter_requires_operation_witness :
    exceptIsOk ((applyNonSels []
      (InsightsRuleBodyFilterBuilder.create "$.httpMethod")).toFilter) = false ∧
    exceptIsOk ((applyNonSels []
      ({ filterMatch := "$.httpMethod", filterOperation := .IN,
         filterOperand := .strs ["PUT"] } : InsightsRuleBodyFilterBuilder)).toFilter) = true :=
  ⟨toFilter_requires_operation.1 "$.httpMethod" [],
   toFilter_requires_operation.2 (.inOp ["PUT"])
     (InsightsRuleBodyFilterBuilder.create "$.httpMethod")
     { filterMatch := "$.httpMethod", filterOperation := .IN, filterOperand := .strs ["PUT"] }
     rfl []⟩

/--
C8: a filter built from only a match field and a single successful
in(values) call renders to an object holding exactly the Match key and
the In key with the operand, in that order and with no other keys; and
for every filter interface value, the rendered object contains the
IgnoreCase key exactly when filterIgnoreCase was set and the Statistic
key exactly when filterStatistic was set.
-/
theorem fromFilter_in_renders_exact_keys :
    (∀ (m : String) (xs : List String) (b : InsightsRuleBodyFilterBuilder)
        (f : IInsightsRuleBodyFilter),
      (InsightsRuleBodyFilterBuilder.create m).inOp xs = .ok b →
      b.toFilter = .ok f →
      InsightsRuleBodyFilter.fromFilter f =
        .obj [("Match", .str m), ("In", .arr (xs.map .str))]) ∧
    (∀ f : IInsightsRuleBodyFilter,
      ("IgnoreCase" ∈ objKeys (InsightsRuleBodyFilter.fromFilter f) ↔
        f.filterIgnoreCase.isSome = true) ∧
      ("Statistic" ∈ objKeys (InsightsRuleBodyFilter.fromFilter f) ↔
        f.filterStatistic.isSome = true)) := by
  constructor
  · intro m xs b f h1 h2
    cases hc : InsightsRuleBodyFilterBuilder.checkAndErrorIfBadOperand xs with
    | error e =>
      simp [InsightsRuleBodyFilterBuilder.inOp, hc] at h1
    | ok u =>
      simp [InsightsRuleBodyFilterBuilder.inOp, hc] at h1
      rw [← h1] at h2
      simp [InsightsRuleBodyFilterBuilder.toFilter, InsightsRuleBodyFilterBuilder.create] at h2
      rw [← h2]
      simp [InsightsRuleBodyFilter.fromFilter, InsightsRuleBodyFilterBuilder.create,
        InsightsRuleBodyFilterOperations.value, FilterOperandVal.toTsVal,
        dropUndefined, TsVal.isUndef, List.filter]
  · intro f
    obtain ⟨m, op, opnd, ic, st⟩ := f
    cases ic <;> cases st <;> cases op <;> cases opnd <;>
      simp [InsightsRuleBodyFilter.fromFilter, dropUndefined, TsVal.isUndef,
        List.filter, objKeys, InsightsRuleBodyFilterOperations.value,
        FilterOperandVal.toTsVal]

/--
C8 witness: the filter for $.httpMethod with in(["PUT"]) rendered at a
concrete input, and the IgnoreCase presence equivalence at a filter
with ignoreCase set.
-/
theorem fromFilter_in_renders_exact_keys_witness :
    InsightsRuleBodyFilter.fromFilter
        { filterMatch := "$.httpMethod", filterOperation := .IN,
          filterOperand := .strs ["PUT"] } =
      .obj [("Match", .str "$.httpMethod"), ("In", .arr [.str "PUT"])] ∧
    ("IgnoreCase" ∈ objKeys (InsightsRuleBodyFilter.fromFilter
        { filterMatch := "$.httpMethod", filterOperation := .IN,
          filterOperand := .strs ["PUT"], filterIgnoreCase := some true }) ↔
      (some true : Option Bool).isSome = true) :=
  ⟨fromFilter_in_renders_exact_keys.1 "$.httpMethod" ["PUT"]
      { filterMatch := "$.httpMethod", filterOperation := .IN, filterOperand := .strs ["PUT"] }
      { filterMatch := "$.httpMethod", filterOperation := .IN, filterOperand := .strs ["PUT"] }
      rfl rfl,
   (fromFilter_in_renders_exact_keys.2
      { filterMatch := "$.httpMethod", filterOperation := .IN,
        filterOperand := .strs ["PUT"], filterIgnoreCase := some true }).1⟩

/--
C9 counterexample: the claim says the caller-held description object is
unchanged after fromRuleBody. setRuleBodyDefaults assigns the inferred
values to the fields of the very object the caller passed (JS objects
are passed by sharing) before validation runs, so a description passed
without a logFormat afterwards carries logFormat JSON: the object
observably changed.
-/
theorem fromRuleBody_mutates_caller_description :
    c9MinimalBody.logFormat = none ∧
    (CloudWatchLogsV1RuleBody.fromRuleBodyCallerView c9MinimalBody).logFormat =
      some InsightRuleLogFormats.JSON ∧
    CloudWatchLogsV1RuleBody.fromRuleBodyCallerView c9MinimalBody ≠ c9MinimalBody := by
  refine ⟨rfl, rfl, ?_⟩
  intro h
  have hlf := congrArg ICloudWatchLogsV1RuleBody.logFormat h
  simp [CloudWatchLogsV1RuleBody.fromRuleBodyCallerView,
    CloudWatchLogsV1RuleBody.setRuleBodyDefaults, c9MinimalBody] at hlf

/--
C9 (amended): fromRuleBody mutates the caller description in place,
filling exactly the defaulted fields; when logFormat, schema,
aggregateOn and contribution.filters are all supplied, the caller
object is unchanged after the call (the fields it held before the call
are exactly the fields it holds after).
-/
theorem fromRuleBody_caller_view_unchanged_when_fully_specified
    (d : ICloudWatchLogsV1RuleBody)
    (h1 : d.logFormat.isSome = true) (h2 : d.schema.isSome = true)
    (h3 : d.aggregateOn.isSome = true) (h4 : d.contribution.filters.isSome = true) :
    CloudWatchLogsV1RuleBody.fromRuleBodyCallerView d = d := by
  obtain ⟨schema, lgn, lf, flds, contrib, agg⟩ := d
  obtain ⟨keys, vo, fl⟩ := contrib
  simp only at h1 h2 h3 h4
  cases lf with
  | none => simp at h1
  | some f =>
    cases schema with
    | none => simp at h2
    | some sc =>
      cases agg with
      | none => simp at h3
      | some a =>
        cases fl with
        | none => simp at h4
        | some fs =>
          simp [CloudWatchLogsV1RuleBody.fromRuleBodyCallerView,
            CloudWatchLogsV1RuleBody.setRuleBodyDefaults]

/--
C9 witness: a fully specified description is unchanged by the call.
-/
theorem fromRuleBody_caller_view_witness :
    CloudWatchLogsV1RuleBody.fromRuleBodyCallerView
        { schema := some .constRef, logGroupNames := ["g"],
          logFormat := some .JSON,
          contribution := { keys := ["k"], filters := some [] },
          aggregateOn := some .COUNT } =
      { schema := some .constRef, logGroupNames := ["g"],
        logFormat := some .JSON,
        contribution := { keys := ["k"], filters := some [] },
        aggregateOn := some .COUNT } :=
  fromRuleBody_caller_view_unchanged_when_fully_specified
    { schema := some .constRef, logGroupNames := ["g"],
      logFormat := some .JSON,
      contribution := { keys := ["k"], filters := some [] },
      aggregateOn := some .COUNT }
    rfl rfl rfl rfl

/--
C10 counterexample: the claim says a raw string input renders
unaltered. CustomRuleBody.fromRuleBody renders JSON.stringify of its
input, and JSON.stringify of a string is its quoted and escaped JSON
string literal, not the string itself.
-/
theorem customRuleBody_string_not_unaltered :
    CustomRuleBody.fromRuleBody (.str "hi") = some "\"hi\"" ∧
    CustomRuleBody.fromRuleBody (.str "hi") ≠ some "hi" := by
  refine ⟨rfl, by decide⟩

/--
C10 (amended): CustomRuleBody.fromRuleBody performs no defaulting and
no validation and never raises — for every input value it returns
JSON.stringify of the structure, untransformed (no default-filling, no
key renaming, no bounds checks); a raw string input therefore renders
as its JSON string-literal encoding rather than character-for-character
unaltered. The second conjunct evaluates an arbitrary non-conforming
value (wrong schema shape, unknown key, lowercase keys) and shows
it is rendered verbatim.
-/
theorem customRuleBody_renders_stringify :
    (∀ v : TsVal, CustomRuleBody.fromRuleBody v = jsonStringify v) ∧
    CustomRuleBody.fromRuleBody
        (.obj [("schema", .obj [("name", .str "Other"), ("version", .num 2)]),
               ("custom", .bool true)]) =
      some "\x7b\"schema\":\x7b\"name\":\"Other\",\"version\":2\x7d,\"custom\":true\x7d" :=
  ⟨fun _ => rfl, rfl⟩

/-- keysToPascalCaseList is the elementwise map of keysToPascalCase. -/
theorem keysToPascalCaseList_eq_map (xs : List TsVal) :
    keysToPascalCaseList xs = xs.map keysToPascalCase := by
  induction xs with
  | nil => rfl
  | cons x xs ih => simp [keysToPascalCaseList, ih]

/-- stringifyParseElems is the elementwise map of stringifyParse. -/
theorem stringifyParseElems_eq_map (xs : List TsVal) :
    stringifyParseElems xs = xs.map stringifyParse := by
  induction xs with
  | nil => rfl
  | cons x xs ih => simp [stringifyParseElems, ih]

/-- A list of string values is unchanged by the casing transform. -/
theorem pascalList_map_str (xs : List String) :
    keysToPascalCaseList (xs.map .str) = xs.map .str := by
  induction xs with
  | nil => rfl
  | cons x xs ih => simp [keysToPascalCaseList, keysToPascalCase, ih]

/-- A list of string values is unchanged by stringify-then-parse. -/
theorem spElems_map_str (xs : List String) :
    stringifyParseElems (xs.map .str) = xs.map .str := by
  induction xs with
  | nil => rfl
  | cons x xs ih => simp [stringifyParseElems, stringifyParse, ih]

/-- A list of string values contains no undefined and no null. -/
theorem noNullUndefList_map_str (xs : List String) :
    noNullUndefList (xs.map .str) = true := by
  induction xs with
  | nil => rfl
  | cons x xs ih => simp [noNullUndefList, noNullUndef, ih]

/-- Entries with string values have only their keys changed by the casing transform. -/
theorem pascalEntries_strPairs (kvs : List (String × String)) :
    keysToPascalCaseEntries (kvs.map (fun kv => (kv.1, TsVal.str kv.2))) =
      kvs.map (fun kv => (pascalKey kv.1, TsVal.str kv.2)) := by
  induction kvs with
  | nil => rfl
  | cons kv kvs ih => simp [keysToPascalCaseEntries, keysToPascalCase, ih]

/-- Entries with string values are unchanged by stringify-then-parse. -/
theorem spEntries_strPairs (kvs : List (String × String)) :
    stringifyParseEntries (kvs.map (fun kv => (pascalKey kv.1, TsVal.str kv.2))) =
      kvs.map (fun kv => (pascalKey kv.1, TsVal.str kv.2)) := by
  induction kvs with
  | nil => rfl
  | cons kv kvs ih => simp [stringifyParseEntries, stringifyParse, TsVal.isUndef, ih]

/-- Entries with string values contain no undefined and no null. -/
theorem noNullUndefEntries_strPairs (kvs : List (String × String)) :
    noNullUndefEntries (kvs.map (fun kv => (pascalKey kv.1, TsVal.str kv.2))) = true := by
  induction kvs with
  | nil => rfl
  | cons kv kvs ih => simp [noNullUndefEntries, noNullUndef, ih]

/-- A value free of undefined and null is not the undefined value. -/
theorem isUndef_false_of_noNullUndef (v : TsVal) (h : noNullUndef v = true) :
    v.isUndef = false := by
  cases v <;> simp_all [TsVal.isUndef, noNullUndef]

mutual

/-- The casing transform preserves freedom from undefined and null. -/
theorem noNullUndef_pascal : ∀ v : TsVal, noNullUndef v = true →
    noNullUndef (keysToPascalCase v) = true
  | .undef, h => h
  | .null, h => h
  | .str _, h => h
  | .num _, h => h
  | .bool _, h => h
  | .arr xs, h => by
    simpa [keysToPascalCase, noNullUndef] using
      noNullUndefList_pascal xs (by simpa [noNullUndef] using h)
  | .obj kvs, h => by
    simpa [keysToPascalCase, noNullUndef] using
      noNullUndefEntries_pascal kvs (by simpa [noNullUndef] using h)

/-- List version of the casing preservation. -/
theorem noNullUndefList_pascal : ∀ xs : List TsVal, noNullUndefList xs = true →
    noNullUndefList (keysToPascalCaseList xs) = true
  | [], h => h
  | x :: xs, h => by
    simp only [noNullUndefList, Bool.and_eq_true] at h
    simp only [keysToPascalCaseList, noNullUndefList, Bool.and_eq_true]
    exact ⟨noNullUndef_pascal x h.1, noNullUndefList_pascal xs h.2⟩

/-- Entry-list version of the casing preservation. -/
theorem noNullUndefEntries_pascal : ∀ kvs : List (String × TsVal),
    noNullUndefEntries kvs = true →
    noNullUndefEntries (keysToPascalCaseEntries kvs) = true
  | [], h => h
  | kv :: kvs, h => by
    simp only [noNullUndefEntries, Bool.and_eq_true] at h
    simp only [keysToPascalCaseEntries, noNullUndefEntries, Bool.and_eq_true]
    exact ⟨noNullUndef_pascal kv.2 h.1, noNullUndefEntries_pascal kvs h.2⟩

end

mutual

/-- Stringify-then-parse preserves freedom from undefined and null. -/
theorem noNullUndef_sp : ∀ v : TsVal, noNullUndef v = true →
    noNullUndef (stringifyParse v) = true
  | .undef, h => by simp [noNullUndef] at h
  | .null, h => by simp [noNullUndef] at h
  | .str _, h => h
  | .num _, h => h
  | .bool _, h => h
  | .arr xs, h => by
    simpa [stringifyParse, noNullUndef] using
      noNullUndefList_sp xs (by simpa [noNullUndef] using h)
  | .obj kvs, h => by
    simpa [stringifyParse, noNullUndef] using
      noNullUndefEntries_sp kvs (by simpa [noNullUndef] using h)

/-- List version of the stringify-then-parse preservation. -/
theorem noNullUndefList_sp : ∀ xs : List TsVal, noNullUndefList xs = true →
    noNullUndefList (stringifyParseElems xs) = true
  | [], h => h
  | x :: xs, h => by
    simp only [noNullUndefList, Bool.and_eq_true] at h
    simp only [stringifyParseElems, noNullUndefList, Bool.and_eq_true]
    exact ⟨noNullUndef_sp x h.1, noNullUndefList_sp xs h.2⟩

/-- Entry-list version of the stringify-then-parse preservation. -/
theorem noNullUndefEntries_sp : ∀ kvs : List (String × TsVal),
    noNullUndefEntries kvs = true →
    noNullUndefEntries (stringifyParseEntries kvs) = true
  | [], h => h
  | kv :: kvs, h => by
    simp only [noNullUndefEntries, Bool.and_eq_true] at h
    simp only [stringifyParseEntries, isUndef_false_of_noNullUndef kv.2 h.1]
    simp only [noNullUndefEntries, Bool.and_eq_true]
    exact ⟨noNullUndef_sp kv.2 h.1, noNullUndefEntries_sp kvs h.2⟩

end

/--
List of filter fragments as it appears after the render pipeline: each
fragment goes through the casing transform and then stringify-parse.
-/
theorem noNullUndefList_sp_pascal (fs : List TsVal)
    (h : ∀ f ∈ fs, noNullUndef f = true) :
    noNullUndefList (stringifyParseElems (keysToPascalCaseList fs)) = true := by
  induction fs with
  | nil => rfl
  | cons f fs ih =>
    simp only [keysToPascalCaseList, stringifyParseElems, noNullUndefList,
      Bool.and_eq_true]
    constructor
    · exact noNullUndef_sp _ (noNullUndef_pascal f (h f (by simp)))
    · exact ih (fun g hg => h g (by simp [hg]))


/-- Casing of the key schema. -/
theorem pascalKey_schema : pascalKey "schema" = "Schema" := by decide

/-- Casing of the key logGroupNames. -/
theorem pascalKey_logGroupNames : pascalKey "logGroupNames" = "LogGroupNames" := by decide

/-- Casing of the key logFormat. -/
theorem pascalKey_logFormat : pascalKey "logFormat" = "LogFormat" := by decide

/-- Casing of the key fields. -/
theorem pascalKey_fields : pascalKey "fields" = "Fields" := by decide

/-- Casing of the key contribution. -/
theorem pascalKey_contribution : pascalKey "contribution" = "Contribution" := by decide

/-- Casing of the key aggregateOn. -/
theorem pascalKey_aggregateOn : pascalKey "aggregateOn" = "AggregateOn" := by decide

/-- Casing of the key keys. -/
theorem pascalKey_keys : pascalKey "keys" = "Keys" := by decide

/-- Casing of the key valueof. -/
theorem pascalKey_valueof : pascalKey "valueof" = "Valueof" := by decide

/-- Casing of the key filters. -/
theorem pascalKey_filters : pascalKey "filters" = "Filters" := by decide

/-- Casing of the key name. -/
theorem pascalKey_name : pascalKey "name" = "Name" := by decide

/-- Casing of the key version. -/
theorem pascalKey_version : pascalKey "version" = "Version" := by decide

/--
Closed form of the parsed rendered JSON of a defaulted description:
Schema, LogGroupNames, LogFormat, Contribution and AggregateOn are
always present, Fields exactly when the description supplied it.
-/
theorem renderedJson_setDefaults (d : ICloudWatchLogsV1RuleBody) :
    CloudWatchLogsV1RuleBody.renderedJson (CloudWatchLogsV1RuleBody.setRuleBodyDefaults d) =
      .obj
        ([("Schema", .obj [("Name", .str (d.schema.getD .constRef).value.name),
                           ("Version", .num (d.schema.getD .constRef).value.version)]),
          ("LogGroupNames", .arr (d.logGroupNames.map .str)),
          ("LogFormat", .str ((d.logFormat.getD
            (if d.fields.isSome then .CLF else .JSON)).value))]
         ++ (match d.fields with
             | some kvs => [("Fields", .obj (kvs.map (fun kv => (pascalKey kv.1, .str kv.2))))]
             | none => [])
         ++ [("Contribution", renderedContribution d),
             ("AggregateOn", .str ((d.aggregateOn.getD
               (if jsTruthyStringOpt d.contribution.valueof then .SUM else .COUNT)).value))]) := by
  obtain ⟨schema, lgn, lf, flds, contrib, agg⟩ := d
  obtain ⟨keys, vo, fl⟩ := contrib
  cases flds with
  | none =>
    cases vo with
    | none =>
      simp [CloudWatchLogsV1RuleBody.renderedJson,
        CloudWatchLogsV1RuleBody.setRuleBodyDefaults, descToTsVal, contributionToTsVal,
        fieldsToTsVal, dropUndefined, TsVal.isUndef, List.filter,
        ruleBodyKeysToPascalCase, keysToPascalCase, keysToPascalCaseEntries,
        patchContribution, objGet, jsTruthy, stringifyParse, stringifyParseEntries,
        pascalList_map_str, spElems_map_str, pascalEntries_strPairs, spEntries_strPairs,
        renderedContribution, renderedFilters,
          pascalKey_schema, pascalKey_logGroupNames, pascalKey_logFormat, pascalKey_fields,
          pascalKey_contribution, pascalKey_aggregateOn, pascalKey_keys, pascalKey_valueof,
          pascalKey_filters, pascalKey_name, pascalKey_version]
    | some s =>
      by_cases hs : s = "" <;>
        simp [CloudWatchLogsV1RuleBody.renderedJson,
          CloudWatchLogsV1RuleBody.setRuleBodyDefaults, descToTsVal, contributionToTsVal,
          fieldsToTsVal, dropUndefined, TsVal.isUndef, List.filter,
          ruleBodyKeysToPascalCase, keysToPascalCase, keysToPascalCaseEntries,
          patchContribution, objGet, jsTruthy, stringifyParse, stringifyParseEntries,
          pascalList_map_str, spElems_map_str, pascalEntries_strPairs, spEntries_strPairs,
          renderedContribution, renderedFilters, hs,
          pascalKey_schema, pascalKey_logGroupNames, pascalKey_logFormat, pascalKey_fields,
          pascalKey_contribution, pascalKey_aggregateOn, pascalKey_keys, pascalKey_valueof,
          pascalKey_filters, pascalKey_name, pascalKey_version]
  | some kvs =>
    cases vo with
    | none =>
      simp [CloudWatchLogsV1RuleBody.renderedJson,
        CloudWatchLogsV1RuleBody.setRuleBodyDefaults, descToTsVal, contributionToTsVal,
        fieldsToTsVal, dropUndefined, TsVal.isUndef, List.filter,
        ruleBodyKeysToPascalCase, keysToPascalCase, keysToPascalCaseEntries,
        patchContribution, objGet, jsTruthy, stringifyParse, stringifyParseEntries,
        pascalList_map_str, spElems_map_str, pascalEntries_strPairs, spEntries_strPairs,
        renderedContribution, renderedFilters,
          pascalKey_schema, pascalKey_logGroupNames, pascalKey_logFormat, pascalKey_fields,
          pascalKey_contribution, pascalKey_aggregateOn, pascalKey_keys, pascalKey_valueof,
          pascalKey_filters, pascalKey_name, pascalKey_version]
    | some s =>
      by_cases hs : s = "" <;>
        simp [CloudWatchLogsV1RuleBody.renderedJson,
          CloudWatchLogsV1RuleBody.setRuleBodyDefaults, descToTsVal, contributionToTsVal,
          fieldsToTsVal, dropUndefined, TsVal.isUndef, List.filter,
          ruleBodyKeysToPascalCase, keysToPascalCase, keysToPascalCaseEntries,
          patchContribution, objGet, jsTruthy, stringifyParse, stringifyParseEntries,
          pascalList_map_str, spElems_map_str, pascalEntries_strPairs, spEntries_strPairs,
          renderedContribution, renderedFilters, hs,
          pascalKey_schema, pascalKey_logGroupNames, pascalKey_logFormat, pascalKey_fields,
          pascalKey_contribution, pascalKey_aggregateOn, pascalKey_keys, pascalKey_valueof,
          pascalKey_filters, pascalKey_name, pascalKey_version]

/--
C7 counterexample: the claim says every key whose source value was not
supplied is absent from the parsed rendered object, with Filters as the
single exception. For a description supplying no logFormat, the parsed
rendered object nevertheless contains the LogFormat key (and likewise
Schema and AggregateOn), because default inference fills these fields
before rendering.
-/
theorem render_contains_LogFormat_when_unsupplied :
    c7MinimalBody.logFormat = none ∧
    ∃ d', CloudWatchLogsV1RuleBody.fromRuleBody c7MinimalBody = .ok d' ∧
      "LogFormat" ∈ objKeys (CloudWatchLogsV1RuleBody.renderedJson d') := by
  refine ⟨rfl, CloudWatchLogsV1RuleBody.setRuleBodyDefaults c7MinimalBody, rfl, ?_⟩
  decide

/--
C7 (amended): for every description accepted by fromRuleBody whose
filter fragments are free of undefined and null, the parsed rendered
object omits entirely every optional key that default inference does
not fill — Fields is present exactly when the fields mapping was
supplied, and the contribution object carries a ValueOf (or, for the
degenerate empty-string value, Valueof) key exactly when valueField was
supplied; the keys filled by default inference (Schema, LogFormat,
AggregateOn, Contribution.Filters) are always present, Filters always
as a list and as the empty list when no filters were supplied; and no
null (and no undefined) appears anywhere in the parsed rendered object.
-/
theorem render_omits_unsupplied_optional_keys
    (d d' : ICloudWatchLogsV1RuleBody)
    (hok : CloudWatchLogsV1RuleBody.fromRuleBody d = .ok d')
    (hfilt : ∀ f ∈ d.contribution.filters.getD [], noNullUndef f = true) :
    ("Fields" ∈ objKeys (CloudWatchLogsV1RuleBody.renderedJson d') ↔
      d.fields.isSome = true) ∧
    (∃ c, objGet (CloudWatchLogsV1RuleBody.renderedJson d') "Contribution" = some c ∧
      (("ValueOf" ∈ objKeys c ∨ "Valueof" ∈ objKeys c) ↔
        d.contribution.valueof.isSome = true) ∧
      ∃ fs, objGet c "Filters" = some (.arr fs) ∧
        (d.contribution.filters = none → fs = [])) ∧
    noNullUndef (CloudWatchLogsV1RuleBody.renderedJson d') = true := by
  have hd' : d' = CloudWatchLogsV1RuleBody.setRuleBodyDefaults d := by
    simp only [CloudWatchLogsV1RuleBody.fromRuleBody] at hok
    cases hv : CloudWatchLogsV1RuleBody.validateRuleBody
        (CloudWatchLogsV1RuleBody.setRuleBodyDefaults d) with
    | error e => rw [hv] at hok; cases hok
    | ok u => rw [hv] at hok; injection hok with h; exact h.symm
  subst hd'
  rw [renderedJson_setDefaults]
  obtain ⟨schema, lgn, lf, flds, contrib, agg⟩ := d
  obtain ⟨keys, vo, fl⟩ := contrib
  simp only at hfilt
  refine ⟨?_, ?_, ?_⟩
  · cases flds <;> simp [objKeys]
  · refine ⟨renderedContribution
      ⟨schema, lgn, lf, flds, ⟨keys, vo, fl⟩, agg⟩, ?_, ?_, ?_⟩
    · cases flds <;> simp [objGet, List.find?]
    · cases vo with
      | none => simp [renderedContribution, objKeys]
      | some s =>
        by_cases hs : s = "" <;>
          simp [renderedContribution, objKeys, hs]
    · refine ⟨stringifyParseElems (keysToPascalCaseList (fl.getD [])), ?_, ?_⟩
      · cases vo with
        | none => simp [renderedContribution, renderedFilters, objGet, List.find?]
        | some s =>
          by_cases hs : s = "" <;>
            simp [renderedContribution, renderedFilters, objGet, List.find?, hs]
      · intro hfl
        subst hfl
        rfl
  · have hfilters : noNullUndefList
        (stringifyParseElems (keysToPascalCaseList (fl.getD []))) = true :=
      noNullUndefList_sp_pascal (fl.getD []) hfilt
    cases flds <;>
      cases vo with
      | none =>
        simp [noNullUndef, noNullUndefEntries, noNullUndefList_map_str,
          noNullUndefEntries_strPairs, renderedContribution, renderedFilters, hfilters]
      | some s =>
        by_cases hs : s = "" <;>
          simp [noNullUndef, noNullUndefEntries, noNullUndefList_map_str,
            noNullUndefEntries_strPairs, renderedContribution, renderedFilters,
            hfilters, hs]

/--
C7 witness: the minimal description supplying neither fields nor
valueField nor filters is accepted, and its parsed rendered object
omits Fields and ValueOf, carries Filters as the empty list, and holds
no null anywhere.
-/
theorem render_omits_unsupplied_optional_keys_witness :
    ("Fields" ∈ objKeys (CloudWatchLogsV1RuleBody.renderedJson
        (CloudWatchLogsV1RuleBody.setRuleBodyDefaults c7MinimalBody)) ↔
      c7MinimalBody.fields.isSome = true) ∧
    (∃ c, objGet (CloudWatchLogsV1RuleBody.renderedJson
        (CloudWatchLogsV1RuleBody.setRuleBodyDefaults c7MinimalBody)) "Contribution" =
          some c ∧
      (("ValueOf" ∈ objKeys c ∨ "Valueof" ∈ objKeys c) ↔
        c7MinimalBody.contribution.valueof.isSome = true) ∧
      ∃ fs, objGet c "Filters" = some (.arr fs) ∧
        (c7MinimalBody.contribution.filters = none → fs = [])) ∧
    noNullUndef (CloudWatchLogsV1RuleBody.renderedJson
      (CloudWatchLogsV1RuleBody.setRuleBodyDefaults c7MinimalBody)) = true :=
  render_omits_unsupplied_optional_keys c7MinimalBody
    (CloudWatchLogsV1RuleBody.setRuleBodyDefaults c7MinimalBody) rfl
    (by intro f hf; simp [c7MinimalBody] at hf)
